import Mathlib

/-!
Verification development for the cctools excerpt: the message-queue (mq)
transport described by the design document, and the vine_mount value object
of taskvine (src/taskvine/src/manager/vine_mount.c).

The mq transport implementation (mq.c / mq.h) is not part of the excerpt;
only its test driver (src/dttools/src/mq_store_test.c) is. The MqModel
namespace therefore models the transport from the design document, as an
executable state machine: wire framing (fixed-size length header followed
by payload), a byte-at-a-time receive machine, send enqueue semantics, and
the wait / poll_wait readiness search over absolute deadlines.

The VineMount namespace embeds vine_mount.c directly: reference counts of
the vine_file objects are tracked in an explicit heap (id to refcount),
since vine_file itself is reference-counted (clone adds a reference,
delete drops one).
-/

namespace MqModel

/-- Modelled from the spec: connection states of the transport (mq.c is not
under src/). A connection is in one of CONNECTING, CONNECTED, CLOSED. -/
inductive MqState
  | CONNECTING
  | CONNECTED
  | CLOSED
deriving DecidableEq, Repr

/-- Modelled from the spec: an outbound source is either memory bytes
(mq_send_buffer) or the contents of a file descriptor (mq_send_fd); in both
cases the message carries only a payload of N bytes, with no record of the
sender-side kind. Bytes are modelled as natural numbers below 256. -/
inductive Source
  | mem (data : List Nat)
  | fd (data : List Nat)
deriving DecidableEq, Repr

/-- Payload bytes of an outbound source. -/
def Source.payload : Source → List Nat
  | .mem d => d
  | .fd d => d

/-- Modelled from the spec: the receiver-armed sink kind, chosen by
mq_store_buffer (memory) or mq_store_fd (stream to a descriptor). -/
inductive SinkKind
  | buffer
  | fd
deriving DecidableEq, Repr

/-- Modelled from the spec: the receive-completion codes returned by
mq_recv, MQ_MSG_BUFFER or MQ_MSG_FD. -/
inductive MsgKind
  | MQ_MSG_BUFFER
  | MQ_MSG_FD
deriving DecidableEq, Repr

/-- Modelled from the spec: mq_recv reports the sink kind that the receiver
armed, a function of the armed sink alone. -/
def reportKind : SinkKind → MsgKind
  | .buffer => .MQ_MSG_BUFFER
  | .fd => .MQ_MSG_FD

/-- Size in bytes of the fixed message header carrying the payload length. -/
def HDRSIZE : Nat := 8

/-- Little-endian base-256 encoding of a payload length into k header bytes. -/
def encodeLen : Nat → Nat → List Nat
  | 0, _ => []
  | k + 1, n => n % 256 :: encodeLen k (n / 256)

/-- Decoding of a little-endian base-256 header back into a length. -/
def decodeLen : List Nat → Nat
  | [] => 0
  | b :: bs => b + 256 * decodeLen bs

/-- Modelled from the spec: the wire frame of one message is the fixed-size
length header followed by the payload bytes; the frame depends only on the
payload, never on the sender-side source kind. -/
def frame (s : Source) : List Nat :=
  encodeLen HDRSIZE s.payload.length ++ s.payload

/-- Modelled from the spec: the byte stream produced by draining an
outbound FIFO queue, frames concatenated in insertion order. -/
def wireOf : List Source → List Nat
  | [] => []
  | s :: q => frame s ++ wireOf q

/-- Modelled from the spec: the inbound decode state of a connection —
either collecting header bytes, or streaming payload bytes into the armed
sink with a bytes-remaining counter. -/
inductive Inbound
  | hdr (got : List Nat)
  | body (len : Nat) (remaining : Nat) (got : List Nat)
deriving DecidableEq, Repr

/-- Receive-side machine state: the inbound decode state plus the completed
messages, each recorded as (reported length, delivered payload bytes), in
completion order. -/
structure RecvState where
  inbound : Inbound
  done : List (Nat × List Nat)
deriving DecidableEq, Repr

/-- Modelled from the spec: one non-blocking step of the receive path,
consuming a single byte from the socket. A full header yields the payload
length and switches to body streaming (a zero-length message completes at
once); each body byte goes to the armed sink, and the message completes
when the remaining counter reaches zero. -/
def stepByte : RecvState → Nat → RecvState
  | ⟨.hdr got, done⟩, b =>
    let got2 := got ++ [b]
    if got2.length = HDRSIZE then
      let n := decodeLen got2
      if n = 0 then ⟨.hdr [], done ++ [(0, [])]⟩
      else ⟨.body n n [], done⟩
    else ⟨.hdr got2, done⟩
  | ⟨.body n rem got, done⟩, b =>
    let got2 := got ++ [b]
    if rem ≤ 1 then ⟨.hdr [], done ++ [(n, got2)]⟩
    else ⟨.body n (rem - 1) got2, done⟩

/-- Running the receive machine over a stream of bytes. -/
def runRecv (st : RecvState) (s : List Nat) : RecvState :=
  s.foldl stepByte st

/-- Initial receive state: awaiting a header, nothing completed. -/
def initRecv : RecvState :=
  ⟨.hdr [], []⟩

/-- Modelled from the spec: mq_recv on a connection whose socket has
delivered the byte stream s, with sink kind armed by the receiver: returns
the first completed message as (reported kind, reported length, delivered
bytes), or none when no message has completed yet. -/
def mq_recv_one (armed : SinkKind) (s : List Nat) : Option (MsgKind × Nat × List Nat) :=
  match (runRecv initRecv s).done with
  | [] => none
  | r :: _ => some (reportKind armed, r.1, r.2)

/-- Modelled from the spec: a connection as seen by the send path — its
state, its FIFO queue of pending outbound messages, and the bytes already
transmitted to the peer. -/
structure MqConn where
  state : MqState
  sendq : List Source
  sentBytes : List Nat
deriving DecidableEq, Repr

/-- Modelled from the spec: mq_send_buffer enqueues a memory-source message;
it fails exactly when the connection is CLOSED, and on success it only
appends to the queue — no bytes are transmitted and the state is unchanged. -/
def mq_send_buffer (c : MqConn) (b : List Nat) : Option MqConn :=
  if c.state = .CLOSED then none
  else some { c with sendq := c.sendq ++ [Source.mem b] }

/-- Modelled from the spec: mq_send_fd enqueues a file-source message, with
the same CLOSED-only failure and enqueue-only behaviour as mq_send_buffer. -/
def mq_send_fd (c : MqConn) (d : List Nat) : Option MqConn :=
  if c.state = .CLOSED then none
  else some { c with sendq := c.sendq ++ [Source.fd d] }

/-- Result of the single-connection wait. -/
inductive WaitResult
  | READY
  | TIMED_OUT
deriving DecidableEq, Repr

/-- Modelled from the spec: the readiness search of mq_wait, checking the
connection once per instant from the current time, with the remaining fuel
being the instants left until the absolute deadline; at the deadline a last
non-blocking check is made. Returns the instant at which the call returns
together with its result. -/
def mq_wait_from (ready : Nat → Bool) : Nat → Nat → Nat × WaitResult
  | 0, t => (t, if ready t then .READY else .TIMED_OUT)
  | f + 1, t => if ready t then (t, .READY) else mq_wait_from ready f (t + 1)

/-- Modelled from the spec: mq_wait blocks until the connection is ready or
the absolute deadline passes; a deadline at or before the current time
leaves no fuel, so only the immediate non-blocking check runs. -/
def mq_wait (ready : Nat → Bool) (now deadline : Nat) : Nat × WaitResult :=
  mq_wait_from ready (deadline - now) now

/-- Number of registered connections that are ready at instant t; each
registered connection is represented by its readiness over time. -/
def readyCount (conns : List (Nat → Bool)) (t : Nat) : Nat :=
  conns.countP (fun c => c t)

/-- Modelled from the spec: the readiness search of mq_poll_wait over the
registered connections, returning at the first instant at which at least
one is ready, with the count of ready connections; at the deadline a last
non-blocking check is made and the count (0 on timeout) is returned. -/
def mq_poll_wait_from (conns : List (Nat → Bool)) : Nat → Nat → Nat × Int
  | 0, t => (t, (readyCount conns t : Int))
  | f + 1, t =>
    if 0 < readyCount conns t then (t, (readyCount conns t : Int))
    else mq_poll_wait_from conns f (t + 1)

/-- Modelled from the spec: mq_poll_wait returns the count of ready
registered connections (0 on timeout), or -1 on an OS-level failure; the
deadline is absolute, so a past deadline leaves no fuel for blocking. -/
def mq_poll_wait (conns : List (Nat → Bool)) (osError : Bool) (now deadline : Nat) :
    Nat × Int :=
  if osError then (now, -1) else mq_poll_wait_from conns (deadline - now) now

end MqModel

namespace VineMount

/-- Heap of vine_file reference counts: file id to current refcount. -/
abbrev FileHeap := Nat → Nat

/-- A vine_file pointer: NULL or the id of a live file. -/
abbrev FilePtr := Option Nat

/-- Modelled from the spec: vine_file_clone (vine_file.c is not under src/;
the spec describes the mount as a reference-counted association, and the
source comment in vine_mount_create says a reference is added each time a
file is connected). Cloning NULL is NULL; cloning a live file increments
its reference count and returns the same file. -/
def vine_file_clone (h : FileHeap) (f : FilePtr) : FileHeap × FilePtr :=
  match f with
  | none => (h, none)
  | some i => (fun j => if j = i then h i + 1 else h j, some i)

/-- Modelled from the spec: vine_file_delete (vine_file.c is not under
src/) releases one reference of a live file; deleting NULL is a no-op. -/
def vine_file_delete (h : FileHeap) (f : FilePtr) : FileHeap :=
  match f with
  | none => h
  | some i => fun j => if j = i then h i - 1 else h j

/-- The vine_mount struct of vine_mount.h: a file pointer, an owned copy of
the remote name (or NULL), the mount flags, and a substitute file pointer. -/
structure vine_mount where
  file : FilePtr
  remote_name : Option String
  flags : Nat
  substitute : FilePtr
deriving DecidableEq, Repr

/-- vine_mount_create per vine_mount.c lines 15-32: clone the file, copy
the remote name with xxstrdup when non-NULL, record the flags, and clone
the substitute. Returns the updated refcount heap and the new mount. -/
def vine_mount_create (h : FileHeap) (file : FilePtr) (remote_name : Option String)
    (flags : Nat) (substitute : FilePtr) : FileHeap × vine_mount :=
  let p1 := vine_file_clone h file
  let p2 := vine_file_clone p1.1 substitute
  (p2.1, { file := p1.2, remote_name := remote_name, flags := flags, substitute := p2.2 })

/-- vine_mount_delete per vine_mount.c lines 34-41: a NULL mount is a
no-op; otherwise release the file reference and free the remote name and
the struct. The substitute reference is not released by this code. -/
def vine_mount_delete (h : FileHeap) (m : Option vine_mount) : FileHeap :=
  match m with
  | none => h
  | some mm => vine_file_delete h mm.file

/-- vine_mount_copy per vine_mount.c lines 43-48: NULL copies to NULL;
otherwise a fresh mount is created from the fields of the original. -/
def vine_mount_copy (h : FileHeap) (m : Option vine_mount) : FileHeap × Option vine_mount :=
  match m with
  | none => (h, none)
  | some mm =>
    let p := vine_mount_create h mm.file mm.remote_name mm.flags mm.substitute
    (p.1, some p.2)

/-- A concrete heap in which every file id has refcount 1. -/
def oneEach : FileHeap := fun _ => 1

/-- Whether the allocator can satisfy a request. -/
inductive AllocEnv
  | ok
  | fail
deriving DecidableEq, Repr

/-- Standard C malloc semantics: returns NULL (none) when allocation
fails. vine_mount.c line 18 allocates the mount struct with plain malloc,
not with the aborting xxmalloc. -/
def c_malloc : AllocEnv → Option Unit
  | .ok => some ()
  | .fail => none

/-- Observable outcomes of running vine_mount_create with allocation made
explicit: a normal return, a process abort raised by the aborting
allocation primitive (xx*), a dereference of a NULL allocation result
(undefined behaviour), or a recoverable allocation-failure error returned
to the caller (which no path of the code produces). -/
inductive CreateOutcome
  | ret (h : FileHeap) (m : vine_mount)
  | abortedByAllocPrim
  | nullDeref
  | allocErrorReturn

/-- vine_mount_create with the allocation behaviour of vine_mount.c made
explicit: line 18 obtains the struct from plain malloc (outcome eStruct)
and line 21 writes through the result without a NULL check, so a failed
struct allocation is a NULL dereference; a non-NULL remote name is copied
with xxstrdup (outcome eName), which aborts the process instead of
returning NULL on failure; otherwise the function returns normally. -/
def vine_mount_create_exec (eStruct eName : AllocEnv) (h : FileHeap) (file : FilePtr)
    (remote_name : Option String) (flags : Nat) (substitute : FilePtr) : CreateOutcome :=
  match c_malloc eStruct with
  | none => .nullDeref
  | some _ =>
    match remote_name, eName with
    | some _, .fail => .abortedByAllocPrim
    | _, _ =>
      let p := vine_mount_create h file remote_name flags substitute
      .ret p.1 p.2

end VineMount


namespace MqModel

/-- Decomposition of a remainder modulo a product, used to show that the
little-endian header codec round-trips. -/
lemma mod_mul_decomp (a b n : Nat) (ha : 0 < a) :
    n % (a * b) = a * (n / a % b) + n % a := by
  rcases Nat.eq_zero_or_pos b with hb | hb
  · subst hb
    simp [Nat.mod_zero, Nat.div_add_mod]
  · have hr : a * (n / a % b) + n % a < a * b := by
      have h1 : n / a % b < b := Nat.mod_lt _ hb
      have h2 : n % a < a := Nat.mod_lt _ ha
      have h3 : a * (n / a % b) + a ≤ a * b := by
        calc a * (n / a % b) + a = a * (n / a % b + 1) := (Nat.mul_succ a _).symm
          _ ≤ a * b := Nat.mul_le_mul_left a (by omega)
      omega
    have key : n = a * b * (n / a / b) + (a * (n / a % b) + n % a) := by
      have h1 := Nat.div_add_mod n a
      have h2 := Nat.div_add_mod (n / a) b
      calc n = a * (n / a) + n % a := h1.symm
        _ = a * (b * (n / a / b) + n / a % b) + n % a := by rw [h2]
        _ = a * b * (n / a / b) + (a * (n / a % b) + n % a) := by ring
    conv_lhs => rw [key]
    rw [Nat.mul_add_mod, Nat.mod_eq_of_lt hr]

/-- Decoding an encoded length recovers the length modulo the header range. -/
lemma decodeLen_encodeLen (k n : Nat) : decodeLen (encodeLen k n) = n % 256 ^ k := by
  induction k generalizing n with
  | zero => simp [encodeLen, decodeLen, Nat.mod_one]
  | succ k ih =>
    rw [encodeLen, decodeLen, ih]
    calc n % 256 + 256 * (n / 256 % 256 ^ k)
        = 256 * (n / 256 % 256 ^ k) + n % 256 := Nat.add_comm _ _
      _ = n % (256 * 256 ^ k) := (mod_mul_decomp 256 (256 ^ k) n (by norm_num)).symm
      _ = n % 256 ^ (k + 1) := by rw [pow_succ, Nat.mul_comm]

/-- An encoded length always has exactly the requested header size. -/
lemma encodeLen_length (k n : Nat) : (encodeLen k n).length = k := by
  induction k generalizing n with
  | zero => rfl
  | succ k ih => simp [encodeLen, ih]

lemma runRecv_nil (st : RecvState) : runRecv st [] = st := rfl

lemma runRecv_cons (st : RecvState) (b : Nat) (s : List Nat) :
    runRecv st (b :: s) = runRecv (stepByte st b) s := rfl

lemma runRecv_append (st : RecvState) (s1 s2 : List Nat) :
    runRecv st (s1 ++ s2) = runRecv (runRecv st s1) s2 := by
  simp [runRecv, List.foldl_append]

/-- Consuming the remaining header bytes: once the header is complete the
machine either completes a zero-length message or switches to streaming the
announced number of payload bytes. -/
lemma runRecv_hdr (bs : List Nat) :
    ∀ (got : List Nat) (done : List (Nat × List Nat)),
      got.length + bs.length = HDRSIZE → bs ≠ [] →
      runRecv ⟨.hdr got, done⟩ bs =
        if decodeLen (got ++ bs) = 0 then ⟨.hdr [], done ++ [(0, [])]⟩
        else ⟨.body (decodeLen (got ++ bs)) (decodeLen (got ++ bs)) [], done⟩ := by
  induction bs with
  | nil => intro got done h hne; exact absurd rfl hne
  | cons b bs ih =>
    intro got done h hne
    rw [runRecv_cons]
    by_cases hbs : bs = []
    · subst hbs
      have hlen : (got ++ [b]).length = HDRSIZE := by
        simp only [List.length_append, List.length_cons, List.length_nil] at h ⊢
        omega
      simp only [stepByte, hlen, if_true]
      split
      · simp_all [runRecv_nil]
      · simp_all [runRecv_nil]
    · have hlen : ¬((got ++ [b]).length = HDRSIZE) := by
        have hpos : 0 < bs.length := List.length_pos.mpr hbs
        simp only [List.length_append, List.length_cons, List.length_nil] at h ⊢
        omega
      simp only [stepByte, hlen, if_false]
      have harg : (got ++ [b]).length + bs.length = HDRSIZE := by
        simp only [List.length_append, List.length_cons, List.length_nil] at h ⊢
        omega
      rw [ih (got ++ [b]) done harg hbs]
      simp

/-- Streaming exactly the announced number of payload bytes completes the
in-flight message, recording its length and full payload. -/
lemma runRecv_body (bs : List Nat) :
    ∀ (n : Nat) (got : List Nat) (done : List (Nat × List Nat)),
      bs ≠ [] →
      runRecv ⟨.body n bs.length got, done⟩ bs = ⟨.hdr [], done ++ [(n, got ++ bs)]⟩ := by
  induction bs with
  | nil => intro n got done hne; exact absurd rfl hne
  | cons b bs ih =>
    intro n got done hne
    rw [runRecv_cons]
    by_cases hbs : bs = []
    · subst hbs
      simp [stepByte, runRecv_nil]
    · have hpos : 0 < bs.length := List.length_pos.mpr hbs
      have hgt : ¬(bs.length + 1 ≤ 1) := by omega
      simp only [stepByte, List.length_cons, Nat.add_sub_cancel]
      rw [if_neg hgt, ih n (got ++ [b]) done hbs]
      simp

/-- Consuming one whole frame from a header-awaiting state delivers exactly
that frame's payload, leaving the machine ready for the next header and the
rest of the stream untouched. -/
lemma runRecv_frame (m : Source) (done : List (Nat × List Nat)) (rest : List Nat)
    (hm : m.payload.length < 256 ^ HDRSIZE) :
    runRecv ⟨.hdr [], done⟩ (frame m ++ rest)
      = runRecv ⟨.hdr [], done ++ [(m.payload.length, m.payload)]⟩ rest := by
  have hlen8 : (encodeLen HDRSIZE m.payload.length).length = HDRSIZE :=
    encodeLen_length _ _
  have hdec : decodeLen (encodeLen HDRSIZE m.payload.length) = m.payload.length := by
    rw [decodeLen_encodeLen]
    exact Nat.mod_eq_of_lt hm
  have hne : encodeLen HDRSIZE m.payload.length ≠ [] := by
    intro hc
    rw [hc] at hlen8
    simp [HDRSIZE] at hlen8
  rw [frame, List.append_assoc, runRecv_append]
  rw [runRecv_hdr (encodeLen HDRSIZE m.payload.length) [] done (by simpa using hlen8) hne]
  simp only [List.nil_append, hdec]
  by_cases hL : m.payload.length = 0
  · have hPnil : m.payload = [] := List.length_eq_zero.mp hL
    simp [hL, hPnil]
  · rw [if_neg hL, runRecv_append]
    have hPne : m.payload ≠ [] := by
      intro hc
      exact hL (by rw [hc]; rfl)
    rw [runRecv_body m.payload m.payload.length [] done hPne]
    simp

/-- Receiving one framed message from the wire yields the armed sink kind,
the payload length, and the exact payload bytes. -/
lemma mq_recv_one_frame (m : Source) (k : SinkKind)
    (hm : m.payload.length < 256 ^ HDRSIZE) :
    mq_recv_one k (wireOf [m]) = some (reportKind k, m.payload.length, m.payload) := by
  have hw : wireOf [m] = frame m ++ [] := by simp [wireOf]
  rw [mq_recv_one, hw, initRecv, runRecv_frame m [] [] hm, runRecv_nil]
  simp


end MqModel

namespace MqModel

/-- The readiness search underlying mq_poll_wait: the result it returns is
always the ready-count at the instant it returns, the return instant lies
between the start and the fuel bound, and a zero result means that no
registered connection was ready at any instant of the search window. -/
lemma mq_poll_wait_from_spec (conns : List (Nat → Bool)) :
    ∀ (f t : Nat),
      (mq_poll_wait_from conns f t).2
          = (readyCount conns (mq_poll_wait_from conns f t).1 : Int)
      ∧ t ≤ (mq_poll_wait_from conns f t).1
      ∧ (mq_poll_wait_from conns f t).1 ≤ t + f
      ∧ ((mq_poll_wait_from conns f t).2 = 0 →
          ∀ u, t ≤ u → u ≤ t + f → readyCount conns u = 0) := by
  intro f
  induction f with
  | zero =>
    intro t
    have he : mq_poll_wait_from conns 0 t = (t, (readyCount conns t : Int)) := rfl
    rw [he]
    refine ⟨rfl, Nat.le_refl t, Nat.le_add_right t 0, ?_⟩
    intro hz u hu1 hu2
    have hu : u = t := by omega
    rw [hu]
    have hz2 : ((readyCount conns t : Nat) : Int) = 0 := hz
    exact_mod_cast hz2
  | succ f ih =>
    intro t
    by_cases hc : 0 < readyCount conns t
    · have he : mq_poll_wait_from conns (f + 1) t = (t, (readyCount conns t : Int)) := by
        simp only [mq_poll_wait_from, if_pos hc]
      rw [he]
      refine ⟨rfl, Nat.le_refl t, Nat.le_add_right t (f + 1), ?_⟩
      intro hz u hu1 hu2
      exfalso
      have hz2 : ((readyCount conns t : Nat) : Int) = 0 := hz
      have hz3 : readyCount conns t = 0 := by exact_mod_cast hz2
      omega
    · have he : mq_poll_wait_from conns (f + 1) t = mq_poll_wait_from conns f (t + 1) := by
        simp only [mq_poll_wait_from, if_neg hc]
      rw [he]
      obtain ⟨ih1, ih2, ih3, ih4⟩ := ih (t + 1)
      refine ⟨ih1, by omega, by omega, ?_⟩
      intro hz u hu1 hu2
      by_cases hu : u = t
      · subst hu
        omega
      · exact ih4 hz u (by omega) (by omega)

/-- C1: Round-trip through a memory sink — a byte sequence B enqueued with
mq_send_buffer is observed by a receiver that armed a memory sink as an
mq_recv completion with code MQ_MSG_BUFFER, a delivered buffer equal to B,
and a reported length equal to the length of B. -/
theorem roundtrip_memory_sink (B : List Nat) (hB : B.length < 256 ^ HDRSIZE) :
    mq_recv_one SinkKind.buffer (wireOf [Source.mem B])
      = some (MsgKind.MQ_MSG_BUFFER, B.length, B) :=
  mq_recv_one_frame (Source.mem B) SinkKind.buffer hB

/-- Witness for roundtrip_memory_sink: the 12-byte string used by the test
driver, the ASCII bytes of the text used as the first message. -/
theorem roundtrip_memory_sink_witness :
    mq_recv_one SinkKind.buffer
        (wireOf [Source.mem [116, 101, 115, 116, 32, 109, 101, 115, 115, 97, 103, 101]])
      = some (MsgKind.MQ_MSG_BUFFER, 12,
          [116, 101, 115, 116, 32, 109, 101, 115, 115, 97, 103, 101]) :=
  roundtrip_memory_sink [116, 101, 115, 116, 32, 109, 101, 115, 115, 97, 103, 101]
    (by decide)

/-- C2: Sink independence — the wire frame of a message does not record the
sender-side source kind (memory frame and file frame of the same payload
are the same bytes), a receiver armed with either sink kind receives the
same payload from either source, and the reported completion code is a
function of the armed sink alone: MQ_MSG_BUFFER for a memory sink and
MQ_MSG_FD for a file sink. -/
theorem sink_independence (d : List Nat) (hd : d.length < 256 ^ HDRSIZE)
    (k : SinkKind) :
    frame (Source.mem d) = frame (Source.fd d)
    ∧ mq_recv_one k (wireOf [Source.mem d]) = some (reportKind k, d.length, d)
    ∧ mq_recv_one k (wireOf [Source.fd d]) = some (reportKind k, d.length, d)
    ∧ reportKind SinkKind.buffer = MsgKind.MQ_MSG_BUFFER
    ∧ reportKind SinkKind.fd = MsgKind.MQ_MSG_FD :=
  ⟨rfl, mq_recv_one_frame (Source.mem d) k hd, mq_recv_one_frame (Source.fd d) k hd,
    rfl, rfl⟩

/-- Witness for sink_independence: a memory-sent and a file-sent two-byte
payload both received into a file sink, both reported as MQ_MSG_FD. -/
theorem sink_independence_witness :
    mq_recv_one SinkKind.fd (wireOf [Source.mem [7, 8]])
        = some (MsgKind.MQ_MSG_FD, 2, [7, 8])
    ∧ mq_recv_one SinkKind.fd (wireOf [Source.fd [7, 8]])
        = some (MsgKind.MQ_MSG_FD, 2, [7, 8]) :=
  ⟨(sink_independence [7, 8] (by decide) SinkKind.fd).2.1,
    (sink_independence [7, 8] (by decide) SinkKind.fd).2.2.1⟩

/-- C4: Per-connection FIFO ordering — the byte stream of a queue holding
M1 then M2 is the frame of M1 followed by the frame of M2; consuming the
frame of M1 alone already completes M1 with its full payload (so M1 is
fully delivered before any byte of the header of M2 is consumed), and
consuming both frames completes M1 then M2 in insertion order. -/
theorem fifo_ordering (m1 m2 : Source)
    (h1 : m1.payload.length < 256 ^ HDRSIZE) (h2 : m2.payload.length < 256 ^ HDRSIZE) :
    wireOf [m1, m2] = frame m1 ++ frame m2
    ∧ (runRecv initRecv (frame m1)).done = [(m1.payload.length, m1.payload)]
    ∧ (runRecv initRecv (wireOf [m1, m2])).done
        = [(m1.payload.length, m1.payload), (m2.payload.length, m2.payload)] := by
  refine ⟨by simp [wireOf], ?_, ?_⟩
  · have h := runRecv_frame m1 [] [] h1
    rw [List.append_nil] at h
    rw [initRecv, h, runRecv_nil]
    simp
  · rw [show wireOf [m1, m2] = frame m1 ++ (frame m2 ++ []) by simp [wireOf]]
    rw [initRecv, runRecv_frame m1 [] (frame m2 ++ []) h1]
    rw [runRecv_frame m2 ([] ++ [(m1.payload.length, m1.payload)]) [] h2]
    rw [runRecv_nil]
    simp

/-- Witness for fifo_ordering: a three-byte memory message followed by a
two-byte file message, completed in order with the first one complete after
its own frame alone. -/
theorem fifo_ordering_witness :
    (runRecv initRecv (frame (Source.mem [1, 2, 3]))).done = [(3, [1, 2, 3])]
    ∧ (runRecv initRecv (wireOf [Source.mem [1, 2, 3], Source.fd [4, 5]])).done
        = [(3, [1, 2, 3]), (2, [4, 5])] :=
  ⟨(fifo_ordering (Source.mem [1, 2, 3]) (Source.fd [4, 5]) (by decide) (by decide)).2.1,
    (fifo_ordering (Source.mem [1, 2, 3]) (Source.fd [4, 5]) (by decide) (by decide)).2.2⟩

/-- C5: Send is enqueue-only and fails iff closed — mq_send_buffer and
mq_send_fd succeed exactly when the connection is not CLOSED (including a
CONNECTING connection not yet accepted), on success they only append the
message to the outbound queue, leaving the state and the bytes already
transmitted to the peer unchanged, and on a CLOSED connection both fail. -/
theorem send_enqueue_semantics (c : MqConn) (b d : List Nat) :
    ((mq_send_buffer c b).isSome ↔ c.state ≠ MqState.CLOSED)
    ∧ ((mq_send_fd c d).isSome ↔ c.state ≠ MqState.CLOSED)
    ∧ (c.state ≠ MqState.CLOSED →
        mq_send_buffer c b = some { c with sendq := c.sendq ++ [Source.mem b] })
    ∧ (c.state ≠ MqState.CLOSED →
        mq_send_fd c d = some { c with sendq := c.sendq ++ [Source.fd d] })
    ∧ (c.state = MqState.CLOSED → mq_send_buffer c b = none ∧ mq_send_fd c d = none) := by
  by_cases h : c.state = MqState.CLOSED
  · simp [mq_send_buffer, mq_send_fd, h]
  · simp [mq_send_buffer, mq_send_fd, h]

/-- Witness for send_enqueue_semantics: a CONNECTING connection (not yet
accepted) accepts an enqueue that transmits nothing, and a CLOSED
connection rejects one. -/
theorem send_enqueue_semantics_witness :
    mq_send_buffer ⟨MqState.CONNECTING, [], []⟩ [1]
        = some ⟨MqState.CONNECTING, [Source.mem [1]], []⟩
    ∧ mq_send_fd ⟨MqState.CLOSED, [], []⟩ [2] = none :=
  ⟨(send_enqueue_semantics ⟨MqState.CONNECTING, [], []⟩ [1] [2]).2.2.1 (by decide),
    ((send_enqueue_semantics ⟨MqState.CLOSED, [], []⟩ [1] [2]).2.2.2.2 rfl).2⟩

/-- C6: Multiplexer wait result — mq_poll_wait returns -1 on an OS-level
failure; otherwise its result equals the number of registered connections
ready at the instant it returns, that instant lies between the call time
and the absolute deadline, and a zero result means no registered connection
was ready at any instant up to the deadline (a timeout). -/
theorem poll_wait_count (conns : List (Nat → Bool)) (now deadline : Nat) :
    mq_poll_wait conns true now deadline = (now, -1)
    ∧ (mq_poll_wait conns false now deadline).2
        = (readyCount conns (mq_poll_wait conns false now deadline).1 : Int)
    ∧ now ≤ (mq_poll_wait conns false now deadline).1
    ∧ (mq_poll_wait conns false now deadline).1 ≤ max now deadline
    ∧ ((mq_poll_wait conns false now deadline).2 = 0 →
        ∀ u, now ≤ u → u ≤ max now deadline → readyCount conns u = 0) := by
  have hfrom := mq_poll_wait_from_spec conns (deadline - now) now
  have hmax : now + (deadline - now) = max now deadline := by omega
  rw [hmax] at hfrom
  exact ⟨rfl, hfrom.1, hfrom.2.1, hfrom.2.2.1, hfrom.2.2.2⟩

/-- Witness for poll_wait_count: an OS failure reports -1, and a poll set
whose single connection is never ready times out with 0, with no readiness
at the probed instant. -/
theorem poll_wait_count_witness :
    mq_poll_wait [fun _ => true] true 0 3 = (0, -1)
    ∧ readyCount [fun _ => false] 1 = 0 :=
  ⟨(poll_wait_count [fun _ => true] 0 3).1,
    (poll_wait_count [fun _ => false] 0 2).2.2.2.2 rfl 1 (by omega) (by omega)⟩

/-- C7: Past-deadline wait semantics — with an absolute deadline at or
before the current time, mq_wait performs the single immediate
non-blocking check and returns at the current instant with READY exactly
when the connection is already ready (TIMED_OUT otherwise), and
mq_poll_wait likewise returns at the current instant with the count of
already-ready connections (0 when none is pending). -/
theorem past_deadline_wait (ready : Nat → Bool) (conns : List (Nat → Bool))
    (now deadline : Nat) (hpast : deadline ≤ now) :
    mq_wait ready now deadline
        = (now, if ready now then WaitResult.READY else WaitResult.TIMED_OUT)
    ∧ mq_poll_wait conns false now deadline = (now, (readyCount conns now : Int)) := by
  have hz : deadline - now = 0 := Nat.sub_eq_zero_of_le hpast
  constructor
  · rw [mq_wait, hz]
    rfl
  · rw [mq_poll_wait, hz]
    rfl

/-- Witness for past_deadline_wait: a deadline of 3 at current time 5 gives
an immediate TIMED_OUT on a never-ready connection and an immediate ready
count of 1 on a poll set whose single connection is already ready. -/
theorem past_deadline_wait_witness :
    mq_wait (fun _ => false) 5 3 = (5, WaitResult.TIMED_OUT)
    ∧ mq_poll_wait [fun _ => true] false 5 3 = (5, 1) :=
  ⟨(past_deadline_wait (fun _ => false) [fun _ => true] 5 3 (by omega)).1,
    (past_deadline_wait (fun _ => false) [fun _ => true] 5 3 (by omega)).2⟩

end MqModel

namespace VineMount

/-- C3 as stated is false on the code: with every refcount initially 1,
creating a mount of file 0 with substitute file 1 and then deleting that
mount leaves file 1 — the substitute — at refcount 2 instead of its
original 1: vine_mount_delete never releases the substitute reference
taken by vine_mount_create. -/
theorem create_delete_substitute_leak :
    vine_mount_delete
        (vine_mount_create oneEach (some 0) (some "data") 0 (some 1)).1
        (some (vine_mount_create oneEach (some 0) (some "data") 0 (some 1)).2) 1 = 2
    ∧ oneEach 1 = 1 :=
  ⟨rfl, rfl⟩

/-- C3 amended: vine_mount_delete releases exactly the file reference taken
by the matching vine_mount_create and not the substitute reference, so a
create followed by its delete leaves every refcount unchanged except that a
non-NULL substitute keeps one extra reference. -/
theorem create_delete_refcount (h : FileHeap) (file : FilePtr) (rn : Option String)
    (fl : Nat) (sub : FilePtr) (i : Nat) :
    vine_mount_delete (vine_mount_create h file rn fl sub).1
        (some (vine_mount_create h file rn fl sub).2) i
      = h i + (if sub = some i then 1 else 0) := by
  cases file with
  | none =>
    cases sub with
    | none =>
      simp [vine_mount_create, vine_mount_delete, vine_file_clone, vine_file_delete]
    | some s =>
      by_cases his : i = s
      · subst his
        simp [vine_mount_create, vine_mount_delete, vine_file_clone, vine_file_delete]
      · simp [vine_mount_create, vine_mount_delete, vine_file_clone, vine_file_delete,
          his, Ne.symm his]
  | some a =>
    cases sub with
    | none =>
      by_cases hia : i = a
      · subst hia
        simp [vine_mount_create, vine_mount_delete, vine_file_clone, vine_file_delete]
      · simp [vine_mount_create, vine_mount_delete, vine_file_clone, vine_file_delete, hia]
    | some s =>
      by_cases hia : i = a
      · subst hia
        by_cases his : i = s
        · subst his
          simp [vine_mount_create, vine_mount_delete, vine_file_clone, vine_file_delete]
        · simp [vine_mount_create, vine_mount_delete, vine_file_clone, vine_file_delete,
            his, Ne.symm his]
      · by_cases his : i = s
        · subst his
          simp [vine_mount_create, vine_mount_delete, vine_file_clone, vine_file_delete,
            hia]
        · simp [vine_mount_create, vine_mount_delete, vine_file_clone, vine_file_delete,
            hia, his, Ne.symm his]

/-- C9: vine_mount_copy of a non-NULL mount yields a mount whose file is
the same underlying vine_file, whose remote name is equal to the original
(NULL exactly when the original is NULL), whose flags are equal, and whose
substitute is the same underlying vine_file; copying NULL yields NULL and
leaves the heap untouched. -/
theorem copy_preserves_value (h : FileHeap) (mm : vine_mount) :
    (vine_mount_copy h (some mm)).2
        = some { file := mm.file, remote_name := mm.remote_name,
                 flags := mm.flags, substitute := mm.substitute }
    ∧ vine_mount_copy h none = (h, none) := by
  constructor
  · cases hf : mm.file <;> cases hs : mm.substitute <;>
      simp [vine_mount_copy, vine_mount_create, vine_file_clone, hf, hs]
  · rfl

/-- C10: deleting a NULL mount is a safe no-op — no file reference is
released and the refcount heap is unchanged. -/
theorem delete_null_noop (h : FileHeap) : vine_mount_delete h none = h :=
  rfl

/-- C8 as stated is false on the code: with the struct allocation failing,
vine_mount_create observes the NULL result of the plain malloc of
vine_mount.c line 18 and dereferences it, instead of the aborting
allocation primitive terminating the process first — the struct allocation
does not go through the aborting primitive. -/
theorem create_alloc_counterexample :
    vine_mount_create_exec AllocEnv.fail AllocEnv.ok oneEach (some 0) (some "data") 0 none
        = CreateOutcome.nullDeref
    ∧ CreateOutcome.nullDeref ≠ CreateOutcome.abortedByAllocPrim :=
  ⟨rfl, fun hcon => CreateOutcome.noConfusion hcon⟩

/-- C8 amended: the mount struct is allocated with plain unchecked malloc,
so a failed struct allocation is observed as a NULL result and dereferenced
instead of aborting through the allocation primitive; the remote-name copy
does go through the aborting xxstrdup; and on no path does
vine_mount_create return an allocation-failure error to the caller. -/
theorem create_alloc_behaviour (eStruct eName : AllocEnv) (h : FileHeap)
    (file : FilePtr) (rn : Option String) (fl : Nat) (sub : FilePtr) :
    vine_mount_create_exec eStruct eName h file rn fl sub ≠ CreateOutcome.allocErrorReturn
    ∧ (eStruct = AllocEnv.fail →
        vine_mount_create_exec eStruct eName h file rn fl sub = CreateOutcome.nullDeref)
    ∧ (∀ s : String, eStruct = AllocEnv.ok → eName = AllocEnv.fail → rn = some s →
        vine_mount_create_exec eStruct eName h file rn fl sub
          = CreateOutcome.abortedByAllocPrim)
    ∧ (eStruct = AllocEnv.ok → eName = AllocEnv.ok →
        vine_mount_create_exec eStruct eName h file rn fl sub
          = CreateOutcome.ret (vine_mount_create h file rn fl sub).1
              (vine_mount_create h file rn fl sub).2) := by
  cases eStruct <;> cases eName <;> cases rn <;>
    simp [vine_mount_create_exec, c_malloc]

/-- Witness for create_alloc_behaviour: a failing remote-name copy aborts
through the primitive, and a failing struct allocation is a NULL
dereference, not a recoverable error return. -/
theorem create_alloc_behaviour_witness :
    vine_mount_create_exec AllocEnv.ok AllocEnv.fail oneEach (some 0) (some "n") 0 none
        = CreateOutcome.abortedByAllocPrim
    ∧ vine_mount_create_exec AllocEnv.fail AllocEnv.ok oneEach none none 0 none
        = CreateOutcome.nullDeref :=
  ⟨(create_alloc_behaviour AllocEnv.ok AllocEnv.fail oneEach (some 0) (some "n") 0
        none).2.2.1 "n" rfl rfl rfl,
    (create_alloc_behaviour AllocEnv.fail AllocEnv.ok oneEach none none 0 none).2.1 rfl⟩

end VineMount
